import Mathlib

/-!
Verification development for the Logger-JS repository.

This file gives a shallow embedding of the reliable-delivery transports of
the repository (the queued/batching Loki HTTP transport of
src/transports/lokiTransport.ts, reliable variant, the simple Loki variant,
and src/transports/syslogTransport.ts) together with the Loki label
formatter (src/formatters/lokiFormatter.ts), and proves properties of the
embedded code.

Modelling conventions:
- JavaScript plain objects used as string-to-string records are modelled as
  insertion-ordered association lists without duplicate keys (JsObj).
  Object spread and Object.fromEntries are modelled by folding an in-place
  key update (setKey) over the entry list, which matches the JS semantics:
  a repeated key keeps its first-insertion position and takes the last
  assigned value.
- Numeric configuration fields are modelled as Option Nat (absent vs
  present); the JS "config.x || d" idiom maps 0 (falsy) and absent to the
  default, while the syslog transport uses "config.x ?? d" which only maps
  absent to the default.
- The asynchronous sendBatch method suspends exactly once, at the awaited
  fetch call.  It is embedded as a synchronous prefix (startSend: the guard,
  setting the isSending flag and capturing batchToSend) plus a completion
  step (completeOk / completeFail: the response handling, the catch block
  and the finally block).  Timers are modelled as pending flags / pending
  delays consumed by explicit fire events.
- Network and clock effects are external inputs: send outcomes are Boolean
  parameters, the syslog line formatter (which reads the clock and the
  hostname) is applied outside the queue model, so the syslog operations
  take the already formatted line.
-/

namespace LoggerJS

/-! ### JavaScript ordered string records -/

/-- Insertion-ordered string-keyed record, the model of a JS plain object
whose values are strings.  Canonical values have no duplicate keys. -/
abbrev JsObj := List (String × String)

/-- Property read o[k]: the value at the first (unique) occurrence of k. -/
def jsLookup (o : JsObj) (k : String) : Option String :=
  (o.find? (fun kv => kv.1 == k)).map (fun kv => kv.2)

/-- Property assignment o[k] = v: update in place if the key exists,
append otherwise.  This is the single step of object spread semantics. -/
def setKey : JsObj → String → String → JsObj
  | [], k, v => [(k, v)]
  | kv :: rest, k, v =>
      if kv.1 == k then (k, v) :: rest else kv :: setKey rest k v

/-- Object.fromEntries, and also the object literal with spreads
such as brace ...a, ...b brace: assign every entry in order. -/
def fromEntries (l : List (String × String)) : JsObj :=
  l.foldl (fun o kv => setKey o kv.1 kv.2) []

/-- JS truthiness of an optional string value: undefined and the empty
string are falsy. -/
def truthy : Option String → Bool
  | none => false
  | some s => !(s == "")

/-- JS Array.prototype.slice(0, e) with a possibly negative end index:
a negative end counts from the end of the array. -/
def jsSliceTo (l : List α) (e : Int) : List α :=
  if 0 ≤ e then l.take e.toNat else l.take (l.length - (-e).toNat)

/-! ### Severity levels (src/constants/levels.ts) -/

/-- The level enumeration, ERROR = 0 through SILLY = 7. -/
inductive Levels where
  | ERROR | WARN | AUDIT | INFO | HTTP | DEBUG | VERBOSE | SILLY
  deriving DecidableEq, Repr

/-- Reverse enum lookup, the TS expression Levels[entry.level]. -/
def Levels.levelName : Levels → String
  | .ERROR => "ERROR"
  | .WARN => "WARN"
  | .AUDIT => "AUDIT"
  | .INFO => "INFO"
  | .HTTP => "HTTP"
  | .DEBUG => "DEBUG"
  | .VERBOSE => "VERBOSE"
  | .SILLY => "SILLY"

/-! ### Log entries (src/types.ts) -/

/-- A structured log entry.  An absent metadata mapping is modelled as the
empty record: spreading undefined and spreading the empty object coincide,
as do (undefined || brace brace) and the empty object. -/
structure LogEntry where
  message : String
  level : Levels
  timestamp : Nat
  metadata : JsObj
  deriving DecidableEq, Repr

/-! ### Loki formatter (src/formatters/lokiFormatter.ts) -/

/-- One Loki stream: the label set and the single value pair
[nanosecond timestamp as string, message]. -/
structure LokiStream where
  stream : JsObj
  values : List (String × String)
  deriving DecidableEq, Repr

/-- Embedding of formatLokiMessage.  The source builds
baseLabels = (level, name of entry.level) followed by the labels argument,
merges entry.metadata on top, and if 0 < maxLabelCount < total it rebuilds
the label set from the level entry, all entries of the labels argument, and
the slice of the remaining entries up to index
maxLabelCount - 1 - (number of keys of labels), which is a JS number and
can be negative. -/
def formatLokiMessage (entry : LogEntry) (maxLabelCount : Nat) (labels : JsObj) : LokiStream :=
  let baseLabels := fromEntries (("level", entry.level.levelName) :: labels)
  let metadataLabels := entry.metadata
  let allLabels := fromEntries (baseLabels ++ metadataLabels)
  let totalLabels := allLabels.length
  let finalLabels :=
    if 0 < maxLabelCount ∧ maxLabelCount < totalLabels then
      let labelEntries := allLabels
      fromEntries ((("level", (jsLookup allLabels "level").getD "undefined")) ::
        (labels ++ jsSliceTo
          (labelEntries.filter fun kv => kv.1 != "level" && !(truthy (jsLookup labels kv.1)))
          ((maxLabelCount : Int) - 1 - (labels.length : Int))))
    else allLabels
  { stream := finalLabels
    values := [(toString (entry.timestamp * 1000000), entry.message)] }

/-! ### Loki transport configuration (src/types.ts, constructors) -/

/-- The LokiConfig object as passed by the user.  Absent numeric options
are none. -/
structure LokiConfig where
  url : Option String
  labels : JsObj
  basicAuth : Option (String × String)
  tenantID : Option String
  batchSize : Option Nat
  batchTimeout : Option Nat
  maxLabelCount : Option Nat
  maxQueueSize : Option Nat
  maxRetries : Option Nat
  retryBaseDelay : Option Nat
  debug : Bool
  deriving DecidableEq, Repr

/-- The JS idiom (config.x || d) on a numeric option: absent and 0 are
falsy and give the default. -/
def jsOr (v : Option Nat) (d : Nat) : Nat :=
  match v with
  | none => d
  | some n => if n = 0 then d else n

/-- JS falsiness of an optional string: absent or empty. -/
def jsFalsyStr : Option String → Bool
  | none => true
  | some s => s == ""

/-- The numeric settings the reliable transport constructor resolves from
its config (lokiTransport.ts reliable variant, constructor body). -/
structure LokiResolved where
  batchSize : Nat
  batchTimeout : Nat
  maxLabelCount : Nat
  maxQueueSize : Nat
  maxRetries : Nat
  retryBaseDelay : Nat
  deriving DecidableEq, Repr

/-- Field resolution of the reliable variant constructor:
batchSize = config.batchSize || 10, batchTimeout = config.batchTimeout ||
5000, maxLabelCount = config.maxLabelCount || 50, maxQueueSize =
config.maxQueueSize || 10000, maxRetries = config.maxRetries || 5,
retryBaseDelay = config.retryBaseDelay || 1000. -/
def resolveLokiConfig (c : LokiConfig) : LokiResolved :=
  { batchSize := jsOr c.batchSize 10
    batchTimeout := jsOr c.batchTimeout 5000
    maxLabelCount := jsOr c.maxLabelCount 50
    maxQueueSize := jsOr c.maxQueueSize 10000
    maxRetries := jsOr c.maxRetries 5
    retryBaseDelay := jsOr c.retryBaseDelay 1000 }

/-- The numeric settings of the simple (non-queued) Loki transport. -/
structure LokiSimpleResolved where
  batchSize : Nat
  batchTimeout : Nat
  maxLabelCount : Nat
  deriving DecidableEq, Repr

/-- Constructor of the simple Loki transport variant: resolves the batch
settings and then throws when the url is absent or empty
(the TS check (!config.url) with the message "Loki URL is required"). -/
def lokiSimpleCtor (c : LokiConfig) : Except String LokiSimpleResolved :=
  if jsFalsyStr c.url then Except.error "Loki URL is required"
  else Except.ok
    { batchSize := jsOr c.batchSize 10
      batchTimeout := jsOr c.batchTimeout 5000
      maxLabelCount := jsOr c.maxLabelCount 50 }

/-- Constructor of the reliable Loki transport variant: its body only
resolves the numeric settings and contains no url validation, so it never
throws. -/
def lokiReliableCtor (c : LokiConfig) : Except String LokiResolved :=
  Except.ok (resolveLokiConfig c)

/-! ### Reliable Loki transport state machine
(lokiTransport.ts, reliable variant) -/

/-- Mutable state of a reliable LokiTransport instance.  The timer handles
are modelled as pending flags; retryTimer carries the scheduled delay in
milliseconds.  inflight is the local batchToSend of the outstanding
sendBatch call, present exactly while a fetch is awaited. -/
structure LokiState where
  queue : List LokiStream
  retryCount : Nat
  isSending : Bool
  inflight : Option (List LokiStream)
  timeoutPending : Bool
  retryTimer : Option Nat
  deriving DecidableEq, Repr

/-- Freshly constructed transport state. -/
def LokiState.init : LokiState :=
  { queue := [], retryCount := 0, isSending := false, inflight := none
    timeoutPending := false, retryTimer := none }

/-- Synchronous prefix of sendBatch, up to the awaited fetch: return if the
queue is empty or a send is in flight, otherwise raise the isSending flag
and capture batchToSend = queue.slice(0, batchSize). -/
def startSend (cfg : LokiResolved) (s : LokiState) : LokiState :=
  if s.queue.length = 0 ∨ s.isSending then s
  else { s with isSending := true, inflight := some (s.queue.take cfg.batchSize) }

/-- Embedding of scheduleSend(immediate): no-op while sending; otherwise
clear the pending linger timer, send now if the queue is non-empty and
(immediate or at least batchSize long), else arm the linger timer if the
queue is non-empty. -/
def scheduleSend (cfg : LokiResolved) (immediate : Bool) (s : LokiState) : LokiState :=
  if s.isSending then s
  else
    let s1 := { s with timeoutPending := false }
    if 0 < s1.queue.length ∧ (immediate ∨ cfg.batchSize ≤ s1.queue.length) then
      startSend cfg s1
    else if 0 < s1.queue.length then { s1 with timeoutPending := true }
    else s1

/-- The message the reliable transport log method builds for an entry:
formatLokiMessage(entry, maxLabelCount, spread of config.labels then
entry.metadata). -/
def lokiFormat (cfg : LokiResolved) (staticLabels : JsObj) (entry : LogEntry) : LokiStream :=
  formatLokiMessage entry cfg.maxLabelCount (fromEntries (staticLabels ++ entry.metadata))

/-- Eviction discipline shared by both reliable transports: when the queue
has already reached the maximum, shift the oldest item, then push the new
one at the tail. -/
def pushEvict (maxQueueSize : Nat) (q : List α) (x : α) : List α :=
  (if maxQueueSize ≤ q.length then q.tail else q) ++ [x]

/-- Embedding of the reliable variant log method: format the entry, evict
the oldest queued message if the queue is full, push, then scheduleSend
with immediate = false. -/
def lokiLog (cfg : LokiResolved) (staticLabels : JsObj) (s : LokiState)
    (entry : LogEntry) : LokiState :=
  let q := if cfg.maxQueueSize ≤ s.queue.length then s.queue.tail else s.queue
  scheduleSend cfg false { s with queue := q ++ [lokiFormat cfg staticLabels entry] }

/-- Retry and reconnect delay shared by both reliable transports:
min(retryBaseDelay * 2 ^ (retryCount - 1), 30000) milliseconds for the
retryCount-th consecutive failure. -/
def retryDelay (base n : Nat) : Nat :=
  min (base * 2 ^ (n - 1)) 30000

/-- Completion of sendBatch on a 2xx response: drop exactly the sent batch
from the front of the queue, reset the retry counter, clear the retry
timer; then the finally block lowers isSending and, when items remain and
the retry counter is zero, calls scheduleSend. -/
def completeOk (cfg : LokiResolved) (s : LokiState) : LokiState :=
  match s.inflight with
  | none => s
  | some b =>
    let s1 := { s with queue := s.queue.drop b.length, retryCount := 0
                       retryTimer := none, inflight := none, isSending := false }
    if 0 < s1.queue.length ∧ s1.retryCount = 0 then scheduleSend cfg false s1 else s1

/-- Completion of sendBatch on a failure (non-2xx or network error):
increment the retry counter; within the budget, arm the retry timer with
the backoff delay and keep the failed items queued; past the budget, drop
exactly the failed batch and reset the counter.  The finally block then
lowers isSending and reschedules when items remain and the counter is
zero. -/
def completeFail (cfg : LokiResolved) (s : LokiState) : LokiState :=
  match s.inflight with
  | none => s
  | some b =>
    let rc := s.retryCount + 1
    let s1 :=
      if rc ≤ cfg.maxRetries then
        { s with retryCount := rc
                 retryTimer := some (retryDelay cfg.retryBaseDelay rc)
                 inflight := none, isSending := false }
      else
        { s with queue := s.queue.drop b.length, retryCount := 0
                 inflight := none, isSending := false }
    if 0 < s1.queue.length ∧ s1.retryCount = 0 then scheduleSend cfg false s1 else s1

/-- The retry timer firing: scheduleSend with immediate = true. -/
def retryFire (cfg : LokiResolved) (s : LokiState) : LokiState :=
  match s.retryTimer with
  | none => s
  | some _ => scheduleSend cfg true { s with retryTimer := none }

/-- The linger timer firing: sendBatch is invoked directly. -/
def lingerFire (cfg : LokiResolved) (s : LokiState) : LokiState :=
  if s.timeoutPending then startSend cfg { s with timeoutPending := false } else s

/-! ### Syslog transport state machine (src/transports/syslogTransport.ts) -/

/-- The numeric settings of the syslog transport relevant to queueing and
reconnection, resolved with the nullish coalescing defaults
maxQueueSize ?? 1000 and retryBaseDelay ?? 1000. -/
structure SyslogResolved where
  maxQueueSize : Nat
  retryBaseDelay : Nat
  deriving DecidableEq, Repr

/-- Mutable state of a SyslogTransport instance.  The sent field is a
history variable recording delivered lines in delivery order; it changes
nothing in the dynamics.  reconnectTimer carries the scheduled delay. -/
structure SyslogState where
  queue : List String
  hasSocket : Bool
  isConnecting : Bool
  retryCount : Nat
  reconnectTimer : Option Nat
  sent : List String
  deriving DecidableEq, Repr

/-- Embedding of handleSocketError: no-op if a reconnect is already
scheduled; otherwise null the socket, clear isConnecting, increment the
retry counter and arm the reconnect timer with the backoff delay. -/
def handleSocketError (cfg : SyslogResolved) (s : SyslogState) : SyslogState :=
  if s.reconnectTimer.isSome then s
  else
    { s with hasSocket := false, isConnecting := false
             retryCount := s.retryCount + 1
             reconnectTimer := some (retryDelay cfg.retryBaseDelay (s.retryCount + 1)) }

/-- Embedding of sendMessage for one already-dequeued line.  ok tells
whether the synchronous socket write succeeded; on a missing socket or a
synchronous send error the line is unshifted back to the front of the
queue, never dropped. -/
def sendMessage (s : SyslogState) (message : String) (ok : Bool) : SyslogState :=
  if !s.hasSocket then { s with queue := message :: s.queue }
  else if ok then { s with sent := s.sent ++ [message] }
  else { s with queue := message :: s.queue }

/-- The while loop of flushQueue.  Each iteration shifts the head line and
runs sendMessage on it; outcomes supplies the synchronous result of each
successive send attempt and also bounds how many iterations of the
(potentially non-terminating) source loop are observed. -/
def flushLoop : SyslogState → List Bool → SyslogState
  | s, [] => s
  | s, ok :: rest =>
    match s.queue with
    | [] => s
    | message :: tl => flushLoop (sendMessage { s with queue := tl } message ok) rest

/-- Embedding of flushQueue: return immediately without a socket or with an
empty queue, otherwise run the drain loop. -/
def flushQueue (s : SyslogState) (outcomes : List Bool) : SyslogState :=
  if !s.hasSocket || s.queue.isEmpty then s else flushLoop s outcomes

/-- Embedding of the syslog log method on the already formatted line
(formatSyslogMessage reads the clock and the hostname and is applied
outside this queue model): evict the oldest line if the queue is full,
push, and flush when a socket is present and no connect is in progress. -/
def syslogLog (cfg : SyslogResolved) (s : SyslogState) (message : String)
    (outcomes : List Bool) : SyslogState :=
  let q := if cfg.maxQueueSize ≤ s.queue.length then s.queue.tail else s.queue
  let s1 := { s with queue := q ++ [message] }
  if s1.hasSocket && !s1.isConnecting then flushQueue s1 outcomes else s1

/-! ### Helper definitions used by the statements and proofs -/

/-- The value of the last assignment of key k in an entry list, which is
the value jsLookup finds after fromEntries. -/
def lastLookup (l : List (String × String)) (k : String) : Option String :=
  l.foldl (fun acc kv => if kv.1 == k then some kv.2 else acc) none

/-- Loki transport state between sends: queue q, nothing in flight, the
linger timer armed exactly when the queue is non-empty. -/
def idleSt (q : List LokiStream) : LokiState :=
  { queue := q, retryCount := 0, isSending := false, inflight := none
    timeoutPending := !q.isEmpty, retryTimer := none }

/-- Loki transport state with a send of the front batch in flight and
retry count rc. -/
def sendingSt (cfg : LokiResolved) (q : List LokiStream) (rc : Nat) : LokiState :=
  { queue := q, retryCount := rc, isSending := true
    inflight := some (q.take cfg.batchSize), timeoutPending := false, retryTimer := none }

/-- One failed delivery round: the in-flight send completes with a failure
and then the armed retry timer fires, starting the next attempt. -/
def failRound (cfg : LokiResolved) (s : LokiState) : LokiState :=
  retryFire cfg (completeFail cfg s)

/-- A configuration with every option absent, in particular no url. -/
def noUrlConfig : LokiConfig :=
  { url := none, labels := [], basicAuth := none, tenantID := none
    batchSize := none, batchTimeout := none, maxLabelCount := none
    maxQueueSize := none, maxRetries := none, retryBaseDelay := none, debug := false }

/-- The same configuration with the six numeric options set to 0. -/
def withZeroNumericOpts (c : LokiConfig) : LokiConfig :=
  { c with batchSize := some 0, batchTimeout := some 0, maxLabelCount := some 0
           maxQueueSize := some 0, maxRetries := some 0, retryBaseDelay := some 0 }

/-- The same configuration with the six numeric options omitted. -/
def withOmittedNumericOpts (c : LokiConfig) : LokiConfig :=
  { c with batchSize := none, batchTimeout := none, maxLabelCount := none
           maxQueueSize := none, maxRetries := none, retryBaseDelay := none }

/-- Concrete label-cap input: three metadata labels on the entry. -/
def capBugEntry : LogEntry :=
  { message := "user login", level := .INFO, timestamp := 0
    metadata := [("m1", "a"), ("m2", "b"), ("m3", "c")] }

/-- Concrete label-cap input: two static labels on the transport. -/
def capBugStatic : JsObj := [("s1", "x"), ("s2", "y")]

/-- Concrete label-cap input: resolved settings with maxLabelCount 3. -/
def capBugConfig : LokiResolved :=
  { batchSize := 10, batchTimeout := 5000, maxLabelCount := 3
    maxQueueSize := 10000, maxRetries := 5, retryBaseDelay := 1000 }

/-- Syslog state with an established connection and queue q. -/
def syslogConnected (q : List String) : SyslogState :=
  { queue := q, hasSocket := true, isConnecting := false, retryCount := 0
    reconnectTimer := none, sent := [] }

/-- Syslog state with no socket and no connect in progress, the queueing
mode during an outage. -/
def syslogDisconnected : SyslogState :=
  { queue := [], hasSocket := false, isConnecting := false, retryCount := 0
    reconnectTimer := none, sent := [] }

/-! ### Lemmas about the ordered-record model -/

theorem jsLookup_nil (k : String) : jsLookup [] k = none := rfl

theorem jsLookup_cons (kv : String × String) (l : JsObj) (k : String) :
    jsLookup (kv :: l) k = if kv.1 = k then some kv.2 else jsLookup l k := by
  by_cases h : kv.1 = k <;> simp [jsLookup, List.find?_cons, h]

theorem jsLookup_setKey (o : JsObj) (a b k : String) :
    jsLookup (setKey o a b) k = if a = k then some b else jsLookup o k := by
  induction o with
  | nil => by_cases h : a = k <;> simp [setKey, jsLookup_cons, jsLookup_nil, h]
  | cons kv rest ih =>
    by_cases hka : kv.1 = a
    · have hs : setKey (kv :: rest) a b = (a, b) :: rest := by simp [setKey, hka]
      rw [hs, jsLookup_cons, jsLookup_cons]
      by_cases h : a = k
      · simp [h]
      · have hkk : ¬ kv.1 = k := fun e => h (hka.symm.trans e)
        simp [h, hkk]
    · have hs : setKey (kv :: rest) a b = kv :: setKey rest a b := by simp [setKey, hka]
      rw [hs, jsLookup_cons, jsLookup_cons, ih]
      by_cases hkk : kv.1 = k
      · have hak : ¬ a = k := fun e => hka (hkk.trans e.symm)
        simp [hkk, hak]
      · simp [hkk]

theorem lastLookup_nil (k : String) : lastLookup [] k = none := rfl

theorem lastLookup_foldl_init (l : List (String × String)) (k : String)
    (init : Option String) :
    l.foldl (fun acc kv => if kv.1 == k then some kv.2 else acc) init
      = (lastLookup l k).or init := by
  induction l generalizing init with
  | nil => simp [lastLookup]
  | cons kv rest ih =>
    have hcons : lastLookup (kv :: rest) k
        = (lastLookup rest k).or (if kv.1 == k then some kv.2 else none) := by
      simp only [lastLookup, List.foldl_cons]
      exact ih (if kv.1 == k then some kv.2 else none)
    rw [List.foldl_cons, ih, hcons]
    cases lastLookup rest k with
    | some v => simp [Option.or]
    | none => by_cases hk : kv.1 == k <;> simp [hk, Option.or]

theorem lastLookup_cons (kv : String × String) (l : List (String × String)) (k : String) :
    lastLookup (kv :: l) k
      = (lastLookup l k).or (if kv.1 = k then some kv.2 else none) := by
  have h := lastLookup_foldl_init l k (if kv.1 == k then some kv.2 else none)
  simp only [lastLookup, List.foldl_cons] at h ⊢
  rw [h]
  by_cases hk : kv.1 = k <;> simp [hk]

theorem lastLookup_append (a b : List (String × String)) (k : String) :
    lastLookup (a ++ b) k = (lastLookup b k).or (lastLookup a k) := by
  simpa [lastLookup, List.foldl_append] using lastLookup_foldl_init b k (lastLookup a k)

theorem lastLookup_eq_none (l : List (String × String)) (k : String)
    (h : ∀ kv ∈ l, kv.1 ≠ k) : lastLookup l k = none := by
  induction l with
  | nil => rfl
  | cons kv rest ih =>
    rw [lastLookup_cons]
    have h1 : kv.1 ≠ k := h kv (List.mem_cons_self kv rest)
    rw [ih fun kv' hm => h kv' (List.mem_cons_of_mem kv hm)]
    simp [h1, Option.or]

theorem jsLookup_foldl_setKey (l : List (String × String)) (o : JsObj) (k : String) :
    jsLookup (l.foldl (fun o kv => setKey o kv.1 kv.2) o) k
      = (lastLookup l k).or (jsLookup o k) := by
  induction l generalizing o with
  | nil => simp [lastLookup, Option.or]
  | cons kv rest ih =>
    rw [List.foldl_cons, ih, jsLookup_setKey, lastLookup_cons]
    cases lastLookup rest k with
    | some v => simp [Option.or]
    | none => by_cases hk : kv.1 = k <;> simp [hk, Option.or]

theorem optOr_none (o : Option α) : o.or none = o := by cases o <;> rfl

theorem jsLookup_fromEntries (l : List (String × String)) (k : String) :
    jsLookup (fromEntries l) k = lastLookup l k := by
  have h := jsLookup_foldl_setKey l [] k
  rw [jsLookup_nil, optOr_none] at h
  exact h

theorem keys_setKey (o : JsObj) (a b : String) :
    (setKey o a b).map Prod.fst
      = if a ∈ o.map Prod.fst then o.map Prod.fst else o.map Prod.fst ++ [a] := by
  induction o with
  | nil => simp [setKey]
  | cons kv rest ih =>
    by_cases hka : kv.1 = a
    · simp [setKey, hka]
    · have hne : ¬ a = kv.1 := fun e => hka e.symm
      by_cases hm : a ∈ rest.map Prod.fst <;> simp [setKey, hka, hne, hm, ih]

theorem nodupKeys_setKey (o : JsObj) (a b : String)
    (h : (o.map Prod.fst).Nodup) : ((setKey o a b).map Prod.fst).Nodup := by
  rw [keys_setKey]
  by_cases hm : a ∈ o.map Prod.fst
  · simpa [hm] using h
  · simp only [hm, if_false]
    exact List.Nodup.append h (List.nodup_singleton a)
      (List.disjoint_singleton.mpr hm)

theorem nodupKeys_fromEntries (l : List (String × String)) :
    ((fromEntries l).map Prod.fst).Nodup := by
  have hgen : ∀ (l : List (String × String)) (o : JsObj), (o.map Prod.fst).Nodup →
      (((l.foldl (fun o kv => setKey o kv.1 kv.2) o)).map Prod.fst).Nodup := by
    intro l
    induction l with
    | nil => intro o ho; simpa using ho
    | cons kv rest ih =>
      intro o ho
      exact ih (setKey o kv.1 kv.2) (nodupKeys_setKey o kv.1 kv.2 ho)
  exact hgen l [] (by simp)

theorem lastLookup_eq_jsLookup_of_nodup (l : List (String × String)) (k : String)
    (h : (l.map Prod.fst).Nodup) : lastLookup l k = jsLookup l k := by
  induction l with
  | nil => rfl
  | cons kv rest ih =>
    have hnd := List.nodup_cons.mp h
    rw [lastLookup_cons, jsLookup_cons, ih hnd.2]
    by_cases hk : kv.1 = k
    · have hnone : lastLookup rest k = none := by
        apply lastLookup_eq_none
        intro kv' hm he
        exact hnd.1 (by
          have : kv'.1 ∈ rest.map Prod.fst := List.mem_map_of_mem Prod.fst hm
          rwa [he, ← hk] at this)
      rw [← ih hnd.2, hnone]
      simp [hk, Option.or]
    · simp [hk, optOr_none]

theorem jsSliceTo_subset (l : List α) (e : Int) : jsSliceTo l e ⊆ l := by
  unfold jsSliceTo
  split <;> exact List.take_subset _ _

/-! ### Lemmas about the eviction queue -/

theorem foldl_pushEvict (maxQ : Nat) (hmax : 0 < maxQ) :
    ∀ (xs q : List α), q.length ≤ maxQ →
      xs.foldl (pushEvict maxQ) q = (q ++ xs).drop (q.length + xs.length - maxQ) := by
  intro xs
  induction xs with
  | nil =>
    intro q hq
    simp [Nat.sub_eq_zero_of_le hq]
  | cons x xs ih =>
    intro q hq
    rw [List.foldl_cons]
    by_cases hfull : maxQ ≤ q.length
    · have hlen : q.length = maxQ := Nat.le_antisymm hq hfull
      have hne : q ≠ [] := by
        intro e
        rw [e] at hlen
        simp at hlen
        omega
      obtain ⟨hd, tl, rfl⟩ := List.exists_cons_of_ne_nil hne
      have hlen' : tl.length + 1 = maxQ := by simpa using hlen
      have hstep : pushEvict maxQ (hd :: tl) x = tl ++ [x] := by
        simp only [pushEvict]
        rw [if_pos hfull]
        rfl
      rw [hstep, ih (tl ++ [x]) (by simp; omega)]
      have h1 : (tl ++ [x]).length + xs.length - maxQ = xs.length := by
        simp
        omega
      have h2 : (hd :: tl).length + (x :: xs).length - maxQ = xs.length + 1 := by
        simp
        omega
      rw [h1, h2]
      simp [List.drop_succ_cons, List.append_assoc]
    · have hstep : pushEvict maxQ q x = q ++ [x] := by
        simp only [pushEvict]
        rw [if_neg hfull]
      rw [hstep, ih (q ++ [x]) (by simp; omega)]
      have h1 : (q ++ [x]).length + xs.length = q.length + (x :: xs).length := by
        simp
        omega
      rw [List.append_assoc, h1]
      simp

theorem length_foldl_pushEvict (maxQ : Nat) (hmax : 0 < maxQ)
    (xs : List α) : (xs.foldl (pushEvict maxQ) []).length ≤ maxQ := by
  rw [foldl_pushEvict maxQ hmax xs [] (by simp)]
  simp
  omega

/-! ### Lemmas about the Loki transport state machine -/

theorem startSend_queue (cfg : LokiResolved) (s : LokiState) :
    (startSend cfg s).queue = s.queue := by
  unfold startSend
  split <;> rfl

theorem scheduleSend_queue (cfg : LokiResolved) (imm : Bool) (s : LokiState) :
    (scheduleSend cfg imm s).queue = s.queue := by
  unfold scheduleSend
  split
  · rfl
  · dsimp only
    split
    · rw [startSend_queue]
    · split <;> rfl

theorem lokiLog_queue (cfg : LokiResolved) (L : JsObj) (s : LokiState) (e : LogEntry) :
    (lokiLog cfg L s e).queue
      = pushEvict cfg.maxQueueSize s.queue (lokiFormat cfg L e) := by
  unfold lokiLog
  rw [scheduleSend_queue]
  rfl

theorem scheduleSend_sending (cfg : LokiResolved) (imm : Bool) (s : LokiState)
    (h : s.isSending = true) : scheduleSend cfg imm s = s := by
  unfold scheduleSend
  rw [if_pos h]

theorem startSend_sending (cfg : LokiResolved) (s : LokiState)
    (h : s.isSending = true) : startSend cfg s = s := by
  unfold startSend
  rw [if_pos (Or.inr h)]

theorem lokiLog_sending (cfg : LokiResolved) (L : JsObj) (s : LokiState) (e : LogEntry)
    (h : s.isSending = true) :
    lokiLog cfg L s e
      = { s with queue := pushEvict cfg.maxQueueSize s.queue (lokiFormat cfg L e) } := by
  unfold lokiLog
  rw [scheduleSend_sending cfg false _ (by simpa using h)]
  rfl

theorem foldl_lokiLog_queue (cfg : LokiResolved) (L : JsObj) :
    ∀ (es : List LogEntry) (s : LokiState),
      (es.foldl (lokiLog cfg L) s).queue
        = (es.map (lokiFormat cfg L)).foldl (pushEvict cfg.maxQueueSize) s.queue := by
  intro es
  induction es with
  | nil => intro s; rfl
  | cons e es ih =>
    intro s
    rw [List.foldl_cons, List.map_cons, List.foldl_cons, ih, lokiLog_queue]

theorem lokiLog_idle_small (cfg : LokiResolved) (L : JsObj) (q : List LokiStream)
    (e : LogEntry) (hb : q.length + 1 < cfg.batchSize) (hm : q.length < cfg.maxQueueSize) :
    lokiLog cfg L (idleSt q) e = idleSt (q ++ [lokiFormat cfg L e]) := by
  unfold lokiLog idleSt
  dsimp only
  rw [if_neg (by omega)]
  unfold scheduleSend
  rw [if_neg (by simp)]
  dsimp only
  rw [if_neg (by simp; omega), if_pos (by simp)]
  simp

theorem lokiLog_idle_trigger (cfg : LokiResolved) (L : JsObj) (q : List LokiStream)
    (e : LogEntry) (hb : cfg.batchSize ≤ q.length + 1) (hm : q.length < cfg.maxQueueSize) :
    lokiLog cfg L (idleSt q) e = sendingSt cfg (q ++ [lokiFormat cfg L e]) 0 := by
  unfold lokiLog idleSt
  dsimp only
  rw [if_neg (by omega)]
  unfold scheduleSend
  rw [if_neg (by simp)]
  dsimp only
  rw [if_pos ⟨by simp, Or.inr (by simp; omega)⟩]
  unfold startSend
  rw [if_neg (by simp)]
  rfl

theorem foldl_lokiLog_idle (cfg : LokiResolved) (L : JsObj) :
    ∀ (es : List LogEntry) (q : List LokiStream),
      q.length + es.length < cfg.batchSize →
      q.length + es.length ≤ cfg.maxQueueSize →
      es.foldl (lokiLog cfg L) (idleSt q) = idleSt (q ++ es.map (lokiFormat cfg L)) := by
  intro es
  induction es with
  | nil => intro q _ _; simp
  | cons e es ih =>
    intro q h1 h2
    rw [List.foldl_cons,
        lokiLog_idle_small cfg L q e (by simp at h1; omega) (by simp at h2; omega),
        ih (q ++ [lokiFormat cfg L e]) (by simp at h1 ⊢; omega) (by simp at h2 ⊢; omega),
        List.map_cons, List.append_assoc]
    rfl

theorem foldl_lokiLog_fill (cfg : LokiResolved) (L : JsObj) :
    ∀ (es : List LogEntry) (q : List LokiStream),
      0 < es.length →
      q.length + es.length = cfg.batchSize →
      q.length + es.length ≤ cfg.maxQueueSize →
      es.foldl (lokiLog cfg L) (idleSt q)
        = sendingSt cfg (q ++ es.map (lokiFormat cfg L)) 0 := by
  intro es
  induction es with
  | nil => intro q h _ _; simp at h
  | cons e es ih =>
    intro q hpos hfull hmax
    cases es with
    | nil =>
      rw [List.foldl_cons,
          lokiLog_idle_trigger cfg L q e (by simp at hfull; omega) (by simp at hmax; omega)]
      rfl
    | cons e2 es2 =>
      rw [List.foldl_cons,
          lokiLog_idle_small cfg L q e (by simp at hfull; omega) (by simp at hmax; omega),
          ih (q ++ [lokiFormat cfg L e]) (by simp) (by simp at hfull ⊢; omega)
            (by simp at hmax ⊢; omega),
          List.map_cons, List.append_assoc]
      rfl

theorem foldl_lokiLog_sending (cfg : LokiResolved) (L : JsObj) :
    ∀ (es : List LogEntry) (s : LokiState), s.isSending = true →
      es.foldl (lokiLog cfg L) s
        = { s with queue :=
              (es.map (lokiFormat cfg L)).foldl (pushEvict cfg.maxQueueSize) s.queue } := by
  intro es
  induction es with
  | nil => intro s _; rfl
  | cons e es ih =>
    intro s h
    rw [List.foldl_cons, lokiLog_sending cfg L s e h,
        ih { s with queue := pushEvict cfg.maxQueueSize s.queue (lokiFormat cfg L e) } h]
    rfl

theorem startSend_retryCount (cfg : LokiResolved) (s : LokiState) :
    (startSend cfg s).retryCount = s.retryCount := by
  unfold startSend
  split <;> rfl

theorem scheduleSend_retryCount (cfg : LokiResolved) (imm : Bool) (s : LokiState) :
    (scheduleSend cfg imm s).retryCount = s.retryCount := by
  unfold scheduleSend
  split
  · rfl
  · dsimp only
    split
    · rw [startSend_retryCount]
    · split <;> rfl

theorem scheduleSend_progress (cfg : LokiResolved) (s : LokiState)
    (h1 : s.isSending = false) (h2 : s.queue ≠ []) :
    (scheduleSend cfg false s).isSending = true
    ∨ (scheduleSend cfg false s).timeoutPending = true := by
  have hpos : 0 < s.queue.length := List.length_pos.mpr h2
  unfold scheduleSend
  rw [if_neg (by simp [h1])]
  dsimp only
  by_cases hb : cfg.batchSize ≤ s.queue.length
  · rw [if_pos ⟨hpos, Or.inr hb⟩]
    left
    unfold startSend
    rw [if_neg (by simp [h1, List.length_eq_zero, h2])]
  · rw [if_neg (by simp [hb]), if_pos hpos]
    right
    rfl

theorem completeOk_queue (cfg : LokiResolved) (s : LokiState) (b : List LokiStream)
    (hb : s.inflight = some b) :
    (completeOk cfg s).queue = s.queue.drop b.length := by
  unfold completeOk
  rw [hb]
  dsimp only
  split
  · rw [scheduleSend_queue]
  · rfl

theorem completeFail_sendingSt (cfg : LokiResolved) (q : List LokiStream) (rc : Nat)
    (hr : rc + 1 ≤ cfg.maxRetries) :
    completeFail cfg (sendingSt cfg q rc)
      = { queue := q, retryCount := rc + 1, isSending := false, inflight := none
          timeoutPending := false
          retryTimer := some (retryDelay cfg.retryBaseDelay (rc + 1)) } := by
  unfold completeFail sendingSt
  dsimp only
  rw [if_pos hr, if_neg (by simp)]

theorem failRound_sendingSt (cfg : LokiResolved) (q : List LokiStream) (rc : Nat)
    (hq : q ≠ []) (hr : rc + 1 ≤ cfg.maxRetries) :
    failRound cfg (sendingSt cfg q rc) = sendingSt cfg q (rc + 1) := by
  unfold failRound
  rw [completeFail_sendingSt cfg q rc hr]
  unfold retryFire
  dsimp only
  unfold scheduleSend
  rw [if_neg (by simp)]
  dsimp only
  rw [if_pos ⟨List.length_pos.mpr hq, Or.inl rfl⟩]
  unfold startSend
  rw [if_neg (by simp [List.length_eq_zero, hq])]
  rfl

theorem failRound_iter (cfg : LokiResolved) (q : List LokiStream) (hq : q ≠ []) :
    ∀ n, n ≤ cfg.maxRetries →
      (failRound cfg)^[n] (sendingSt cfg q 0) = sendingSt cfg q n := by
  intro n
  induction n with
  | zero => intro _; rfl
  | succ n ih =>
    intro hn
    rw [Function.iterate_succ_apply', ih (by omega),
        failRound_sendingSt cfg q n hq (by omega)]

theorem completeFail_exhausted (cfg : LokiResolved) (q : List LokiStream) :
    (completeFail cfg (sendingSt cfg q cfg.maxRetries)
        = scheduleSend cfg false
            ⟨q.drop (q.take cfg.batchSize).length, 0, false, none, false, none⟩
      ∧ q.drop (q.take cfg.batchSize).length ≠ [])
    ∨ (completeFail cfg (sendingSt cfg q cfg.maxRetries)
        = ⟨q.drop (q.take cfg.batchSize).length, 0, false, none, false, none⟩
      ∧ q.drop (q.take cfg.batchSize).length = []) := by
  unfold completeFail sendingSt
  dsimp only
  have hcond : ¬ (cfg.maxRetries + 1 ≤ cfg.maxRetries) := by omega
  rw [if_neg hcond]
  by_cases hnil : q.drop (q.take cfg.batchSize).length = []
  · right
    rw [if_neg (by rw [hnil]; simp)]
    exact ⟨rfl, hnil⟩
  · left
    rw [if_pos ⟨List.length_pos.mpr hnil, rfl⟩]
    exact ⟨rfl, hnil⟩

/-! ### Lemmas about the syslog transport in queueing mode -/

theorem syslogLog_disconnected (cfg : SyslogResolved) (s : SyslogState) (m : String)
    (outs : List Bool) (h : s.hasSocket = false) :
    syslogLog cfg s m outs
      = { s with queue := pushEvict cfg.maxQueueSize s.queue m } := by
  unfold syslogLog
  rw [if_neg (by simp [h])]
  rfl

theorem foldl_syslogLog_queue (cfg : SyslogResolved) :
    ∀ (ms : List String) (s : SyslogState), s.hasSocket = false →
      (ms.foldl (fun t m => syslogLog cfg t m []) s).queue
        = ms.foldl (pushEvict cfg.maxQueueSize) s.queue := by
  intro ms
  induction ms with
  | nil => intro s _; rfl
  | cons m ms ih =>
    intro s hs
    rw [List.foldl_cons, List.foldl_cons, syslogLog_disconnected cfg s m [] hs]
    exact ih _ hs

theorem lastLookup_sliceTo_filter_ne (all L : JsObj) (n : Int) (k : String) :
    lastLookup
      (jsSliceTo (all.filter fun kv => kv.1 != k && !(truthy (jsLookup L kv.1))) n) k
      = none := by
  apply lastLookup_eq_none
  intro kv hkv he
  have h1 := jsSliceTo_subset _ _ hkv
  have h2 := (List.mem_filter.mp h1).2
  have h3 : (kv.1 != k) = true := ((Bool.and_eq_true _ _).mp h2).1
  rw [he] at h3
  simp at h3

theorem flushLoop_all_true :
    ∀ (q : List String) (c : Bool) (rc : Nat) (rt : Option Nat) (sent : List String),
      flushLoop ⟨q, true, c, rc, rt, sent⟩ (List.replicate q.length true)
        = ⟨[], true, c, rc, rt, sent ++ q⟩ := by
  intro q
  induction q with
  | nil =>
    intro c rc rt sent
    simp [flushLoop]
  | cons m tl ih =>
    intro c rc rt sent
    rw [List.length_cons, List.replicate_succ]
    show flushLoop _ _ = _
    rw [flushLoop]
    dsimp only
    rw [show sendMessage ⟨tl, true, c, rc, rt, sent⟩ m true
          = ⟨tl, true, c, rc, rt, sent ++ [m]⟩ by simp [sendMessage]]
    rw [ih c rc rt (sent ++ [m]), List.append_assoc]
    rfl

theorem flushLoop_fail_retry (m : String) (tl : List String) (outs : List Bool) :
    flushLoop (syslogConnected (m :: tl)) (false :: outs)
      = flushLoop (syslogConnected (m :: tl)) outs := by
  conv_lhs => rw [flushLoop]
  dsimp only [syslogConnected]
  rw [show sendMessage ⟨tl, true, false, 0, none, []⟩ m false
        = ⟨m :: tl, true, false, 0, none, []⟩ by simp [sendMessage]]

/-! ### The claims -/

/-- C1: for every sequence of log calls on a reliable transport (reliable
Loki transport with maxQueueSize, or syslog transport in queueing mode with
maxQueueSize), the queue length never exceeds maxQueueSize, and the
retained items are exactly the most-recently-enqueued messages in enqueue
order: the queue equals the enqueued message sequence with its oldest
overflow prefix dropped. -/
theorem claim_C1 (cfgL : LokiResolved) (L : JsObj) (es : List LogEntry)
    (cfgS : SyslogResolved) (ms : List String)
    (hL : 0 < cfgL.maxQueueSize) (hS : 0 < cfgS.maxQueueSize) :
    ((es.foldl (lokiLog cfgL L) LokiState.init).queue.length ≤ cfgL.maxQueueSize
      ∧ (es.foldl (lokiLog cfgL L) LokiState.init).queue
          = (es.map (lokiFormat cfgL L)).drop (es.length - cfgL.maxQueueSize))
    ∧ ((ms.foldl (fun t m => syslogLog cfgS t m []) syslogDisconnected).queue.length
          ≤ cfgS.maxQueueSize
      ∧ (ms.foldl (fun t m => syslogLog cfgS t m []) syslogDisconnected).queue
          = ms.drop (ms.length - cfgS.maxQueueSize)) := by
  have hLq := foldl_lokiLog_queue cfgL L es LokiState.init
  have hSq := foldl_syslogLog_queue cfgS ms syslogDisconnected rfl
  have hLe : (es.map (lokiFormat cfgL L)).foldl (pushEvict cfgL.maxQueueSize) []
      = (es.map (lokiFormat cfgL L)).drop (es.length - cfgL.maxQueueSize) := by
    rw [foldl_pushEvict cfgL.maxQueueSize hL _ [] (by simp)]
    simp
  have hSe : ms.foldl (pushEvict cfgS.maxQueueSize) []
      = ms.drop (ms.length - cfgS.maxQueueSize) := by
    rw [foldl_pushEvict cfgS.maxQueueSize hS _ [] (by simp)]
    simp
  refine ⟨⟨?_, ?_⟩, ⟨?_, ?_⟩⟩
  · rw [hLq]
    exact length_foldl_pushEvict _ hL _
  · rw [hLq]
    exact hLe
  · rw [hSq]
    exact length_foldl_pushEvict _ hS _
  · rw [hSq]
    exact hSe

/-- Witness for C1 at a concrete instance: maxQueueSize 2 on both
transports, three log calls each; the queues retain the last two items. -/
theorem claim_C1_witness :
    0 < (2 : Nat) ∧
    ((([⟨"a", .INFO, 0, []⟩, ⟨"b", .INFO, 0, []⟩, ⟨"c", .INFO, 0, []⟩] :
        List LogEntry).foldl
          (lokiLog ⟨2, 5000, 50, 2, 5, 1000⟩ []) LokiState.init).queue.length ≤ 2
      ∧ ((["x", "y", "z"].foldl (fun t m => syslogLog ⟨2, 1000⟩ t m [])
            syslogDisconnected).queue = ["y", "z"])) := by
  have h := claim_C1 ⟨2, 5000, 50, 2, 5, 1000⟩ []
    [⟨"a", .INFO, 0, []⟩, ⟨"b", .INFO, 0, []⟩, ⟨"c", .INFO, 0, []⟩]
    ⟨2, 1000⟩ ["x", "y", "z"] (by decide) (by decide)
  exact ⟨by decide, h.1.1, by rw [h.2.2]; rfl⟩

/-- C4: while a send is in flight, a schedule or send attempt is a no-op
and a log call only enqueues: it leaves the isSending flag and the
in-flight batch untouched, so overlapping sends cannot arise. -/
theorem claim_C4 (cfg : LokiResolved) (L : JsObj) (s : LokiState) (e : LogEntry)
    (imm : Bool) (h : s.isSending = true) :
    scheduleSend cfg imm s = s
    ∧ startSend cfg s = s
    ∧ lokiLog cfg L s e
        = { s with queue := pushEvict cfg.maxQueueSize s.queue (lokiFormat cfg L e) }
    ∧ (lokiLog cfg L s e).isSending = true
    ∧ (lokiLog cfg L s e).inflight = s.inflight := by
  refine ⟨scheduleSend_sending cfg imm s h, startSend_sending cfg s h,
    lokiLog_sending cfg L s e h, ?_, ?_⟩
  · rw [lokiLog_sending cfg L s e h]
    exact h
  · rw [lokiLog_sending cfg L s e h]

/-- Witness for C4 at a concrete sending state. -/
theorem claim_C4_witness :
    scheduleSend ⟨10, 5000, 50, 10000, 5, 1000⟩ false
        ⟨[], 0, true, some [], false, none⟩ = ⟨[], 0, true, some [], false, none⟩
    ∧ (lokiLog ⟨10, 5000, 50, 10000, 5, 1000⟩ []
        ⟨[], 0, true, some [], false, none⟩ ⟨"a", .INFO, 0, []⟩).inflight = some [] := by
  have h := claim_C4 ⟨10, 5000, 50, 10000, 5, 1000⟩ []
    ⟨[], 0, true, some [], false, none⟩ ⟨"a", .INFO, 0, []⟩ false rfl
  exact ⟨h.1, h.2.2.2.2⟩

/-- C5: the retry and reconnect delay scheduled after the n-th consecutive
failure is retryDelay base n = min(base * 2 ^ (n - 1), 30000) milliseconds,
for the Loki transport (failure within the retry budget) and for the syslog
transport (socket error with no reconnect already pending), and this delay
is non-decreasing in n. -/
theorem claim_C5 (cfgL : LokiResolved) (cfgS : SyslogResolved) (s : LokiState)
    (t : SyslogState) (b : List LokiStream)
    (hb : s.inflight = some b) (hr : s.retryCount + 1 ≤ cfgL.maxRetries)
    (ht : t.reconnectTimer = none) :
    (completeFail cfgL s).retryTimer
        = some (retryDelay cfgL.retryBaseDelay (s.retryCount + 1))
    ∧ (handleSocketError cfgS t).reconnectTimer
        = some (retryDelay cfgS.retryBaseDelay (t.retryCount + 1))
    ∧ (∀ base n, retryDelay base n = min (base * 2 ^ (n - 1)) 30000)
    ∧ (∀ base n m, n ≤ m → retryDelay base n ≤ retryDelay base m) := by
  refine ⟨?_, ?_, fun base n => rfl, ?_⟩
  · simp only [completeFail, hb]
    rw [if_pos hr]
    rw [if_neg (by simp)]
  · simp [handleSocketError, ht]
  · intro base n m hnm
    unfold retryDelay
    exact min_le_min
      (Nat.mul_le_mul_left base (Nat.pow_le_pow_right (by omega) (by omega)))
      (le_refl 30000)

/-- C3: a send captures, without removing them, up to batchSize items from
the front of the queue; for more than batchSize entries logged from the
initial state, the in-flight batch is exactly the first batchSize formatted
messages in enqueue order while the queue still holds all of them, and the
success completion removes exactly the sent items from the front. -/
theorem claim_C3 (cfg : LokiResolved) (L : JsObj) (es : List LogEntry)
    (h1 : 0 < cfg.batchSize) (h2 : cfg.batchSize < es.length)
    (h3 : es.length ≤ cfg.maxQueueSize) :
    (∀ t : LokiState, (startSend cfg t).queue = t.queue)
    ∧ (es.foldl (lokiLog cfg L) LokiState.init).inflight
        = some ((es.map (lokiFormat cfg L)).take cfg.batchSize)
    ∧ (es.foldl (lokiLog cfg L) LokiState.init).queue = es.map (lokiFormat cfg L)
    ∧ (completeOk cfg (es.foldl (lokiLog cfg L) LokiState.init)).queue
        = (es.map (lokiFormat cfg L)).drop cfg.batchSize := by
  have hsplit : es.take cfg.batchSize ++ es.drop cfg.batchSize = es :=
    List.take_append_drop _ _
  have hlen_take : (es.take cfg.batchSize).length = cfg.batchSize := by
    rw [List.length_take]
    omega
  have hfill : (es.take cfg.batchSize).foldl (lokiLog cfg L) LokiState.init
      = sendingSt cfg ((es.map (lokiFormat cfg L)).take cfg.batchSize) 0 := by
    have h := foldl_lokiLog_fill cfg L (es.take cfg.batchSize) []
      (by rw [hlen_take]; exact h1)
      (by simp [hlen_take])
      (by simp [hlen_take]; omega)
    rw [show LokiState.init = idleSt [] from rfl, h]
    simp [List.map_take]
  have hq2 : ((es.drop cfg.batchSize).map (lokiFormat cfg L)).foldl
        (pushEvict cfg.maxQueueSize)
        ((es.map (lokiFormat cfg L)).take cfg.batchSize)
      = es.map (lokiFormat cfg L) := by
    rw [List.map_drop]
    have hlt : ((es.map (lokiFormat cfg L)).take cfg.batchSize).length
        ≤ cfg.maxQueueSize := by
      rw [List.length_take, List.length_map]
      omega
    rw [foldl_pushEvict cfg.maxQueueSize (by omega) _ _ hlt,
        List.take_append_drop]
    have hz : ((es.map (lokiFormat cfg L)).take cfg.batchSize).length
        + ((es.map (lokiFormat cfg L)).drop cfg.batchSize).length
        - cfg.maxQueueSize = 0 := by
      rw [List.length_take, List.length_drop, List.length_map]
      omega
    rw [hz]
    rfl
  have hstate : es.foldl (lokiLog cfg L) LokiState.init
      = { queue := es.map (lokiFormat cfg L), retryCount := 0, isSending := true
          inflight := some ((es.map (lokiFormat cfg L)).take cfg.batchSize)
          timeoutPending := false, retryTimer := none } := by
    conv_lhs => rw [← hsplit]
    rw [List.foldl_append, hfill,
        foldl_lokiLog_sending cfg L (es.drop cfg.batchSize) _ rfl]
    unfold sendingSt
    dsimp only
    rw [hq2, List.take_take, Nat.min_self]
  have hmin : min cfg.batchSize (es.map (lokiFormat cfg L)).length = cfg.batchSize := by
    rw [List.length_map]
    omega
  refine ⟨fun t => startSend_queue cfg t, ?_, ?_, ?_⟩
  · rw [hstate]
  · rw [hstate]
  · rw [hstate,
        completeOk_queue cfg _ ((es.map (lokiFormat cfg L)).take cfg.batchSize) rfl]
    rw [List.length_take, hmin]

/-- Witness for C3: batchSize 2, three entries; the in-flight batch is the
first two formatted messages and success drops exactly those. -/
theorem claim_C3_witness :
    (2 : Nat) < ([⟨"a", .INFO, 0, []⟩, ⟨"b", .WARN, 0, []⟩, ⟨"c", .ERROR, 0, []⟩] :
        List LogEntry).length
    ∧ (([⟨"a", .INFO, 0, []⟩, ⟨"b", .WARN, 0, []⟩, ⟨"c", .ERROR, 0, []⟩] :
          List LogEntry).foldl
            (lokiLog ⟨2, 5000, 50, 10, 5, 1000⟩ []) LokiState.init).queue
        = ([⟨"a", .INFO, 0, []⟩, ⟨"b", .WARN, 0, []⟩, ⟨"c", .ERROR, 0, []⟩] :
            List LogEntry).map (lokiFormat ⟨2, 5000, 50, 10, 5, 1000⟩ [])
    ∧ (completeOk ⟨2, 5000, 50, 10, 5, 1000⟩
          (([⟨"a", .INFO, 0, []⟩, ⟨"b", .WARN, 0, []⟩, ⟨"c", .ERROR, 0, []⟩] :
              List LogEntry).foldl
                (lokiLog ⟨2, 5000, 50, 10, 5, 1000⟩ []) LokiState.init)).queue
        = (([⟨"a", .INFO, 0, []⟩, ⟨"b", .WARN, 0, []⟩, ⟨"c", .ERROR, 0, []⟩] :
            List LogEntry).map (lokiFormat ⟨2, 5000, 50, 10, 5, 1000⟩ [])).drop 2 := by
  have h := claim_C3 ⟨2, 5000, 50, 10, 5, 1000⟩ []
    [⟨"a", .INFO, 0, []⟩, ⟨"b", .WARN, 0, []⟩, ⟨"c", .ERROR, 0, []⟩]
    (by decide) (by decide) (by decide)
  exact ⟨by decide, h.2.2.1, h.2.2.2⟩

/-- C2: with a batch of the front items in flight and the retry counter at
0, each of the first maxRetries consecutive failures keeps the queue and
the in-flight batch unchanged while counting up; the (maxRetries + 1)-th
consecutive failure removes exactly the failed batch, the front
batchSize-slice, from the head of the queue, resets the retry counter to
0, and when items remain either a send is started or the linger timer is
armed.  All transitions are total functions: no exception is raised. -/
theorem claim_C2 (cfg : LokiResolved) (q : List LokiStream) (hq : q ≠ []) :
    (∀ n, n ≤ cfg.maxRetries →
        (failRound cfg)^[n] (sendingSt cfg q 0) = sendingSt cfg q n)
    ∧ (completeFail cfg (sendingSt cfg q cfg.maxRetries)).queue
        = q.drop (q.take cfg.batchSize).length
    ∧ (completeFail cfg (sendingSt cfg q cfg.maxRetries)).retryCount = 0
    ∧ (q.drop (q.take cfg.batchSize).length ≠ [] →
        (completeFail cfg (sendingSt cfg q cfg.maxRetries)).isSending = true
        ∨ (completeFail cfg (sendingSt cfg q cfg.maxRetries)).timeoutPending = true) := by
  have hex := completeFail_exhausted cfg q
  refine ⟨failRound_iter cfg q hq, ?_, ?_, ?_⟩
  · rcases hex with ⟨heq, _⟩ | ⟨heq, _⟩
    · rw [heq, scheduleSend_queue]
    · rw [heq]
  · rcases hex with ⟨heq, _⟩ | ⟨heq, _⟩
    · rw [heq, scheduleSend_retryCount]
    · rw [heq]
  · intro hne
    rcases hex with ⟨heq, _⟩ | ⟨_, hnil⟩
    · rw [heq]
      exact scheduleSend_progress cfg _ rfl hne
    · exact absurd hnil hne

/-- Witness for C2: batchSize 2, maxRetries 2, a three-item queue; the
third consecutive failure drops the front two items and resets the
counter. -/
theorem claim_C2_witness :
    ([⟨[], []⟩, ⟨[], []⟩, ⟨[], []⟩] : List LokiStream) ≠ []
    ∧ (completeFail ⟨2, 5000, 50, 10, 2, 1000⟩
        (sendingSt ⟨2, 5000, 50, 10, 2, 1000⟩
          [⟨[], []⟩, ⟨[], []⟩, ⟨[], []⟩] 2)).queue = [⟨[], []⟩]
    ∧ (completeFail ⟨2, 5000, 50, 10, 2, 1000⟩
        (sendingSt ⟨2, 5000, 50, 10, 2, 1000⟩
          [⟨[], []⟩, ⟨[], []⟩, ⟨[], []⟩] 2)).retryCount = 0 := by
  have h := claim_C2 ⟨2, 5000, 50, 10, 2, 1000⟩
    [⟨[], []⟩, ⟨[], []⟩, ⟨[], []⟩] (by decide)
  refine ⟨by decide, ?_, h.2.2.1⟩
  rw [h.2.1]
  rfl

/-- C6 counterexample: constructing the reliable (queued) Loki transport
with the url absent does not throw: the constructor contains no url
validation and returns normally. -/
theorem claim_C6_counterexample :
    jsFalsyStr noUrlConfig.url = true
    ∧ lokiReliableCtor noUrlConfig
        = Except.ok { batchSize := 10, batchTimeout := 5000, maxLabelCount := 50
                      maxQueueSize := 10000, maxRetries := 5, retryBaseDelay := 1000 } :=
  ⟨rfl, rfl⟩

/-- C6 (amended): the simple Loki transport constructor throws the
configuration error exactly when the url is absent or empty, while the
reliable variant constructor performs no url validation and always returns
normally; in this embedding every operation reachable from log is a total
function into the state type, so the simple constructor error is the only
error value any public operation produces. -/
theorem claim_C6_amended (c : LokiConfig) :
    (jsFalsyStr c.url = true → lokiSimpleCtor c = Except.error "Loki URL is required")
    ∧ (jsFalsyStr c.url = false → lokiSimpleCtor c
        = Except.ok { batchSize := jsOr c.batchSize 10
                      batchTimeout := jsOr c.batchTimeout 5000
                      maxLabelCount := jsOr c.maxLabelCount 50 })
    ∧ lokiReliableCtor c = Except.ok (resolveLokiConfig c) := by
  refine ⟨?_, ?_, rfl⟩
  · intro h
    simp [lokiSimpleCtor, h]
  · intro h
    simp [lokiSimpleCtor, h]

/-- Witness for C6 (amended) at the url-free configuration. -/
theorem claim_C6_witness :
    jsFalsyStr noUrlConfig.url = true
    ∧ lokiSimpleCtor noUrlConfig = Except.error "Loki URL is required" :=
  ⟨by decide, (claim_C6_amended noUrlConfig).1 (by decide)⟩

/-- C7, code evaluated at the failing input: with maxLabelCount 3, two
static labels and three metadata labels (six merged labels counting
level), the transport call site of formatLokiMessage produces all six
labels.  The cap is ineffective there because the labels argument already
contains the metadata, so the filter step keeps no entry and the rebuilt
set re-adds every label, contradicting the documented maximum. -/
theorem claim_C7_bug :
    (lokiFormat capBugConfig capBugStatic capBugEntry).stream
      = [("level", "INFO"), ("s1", "x"), ("s2", "y"),
         ("m1", "a"), ("m2", "b"), ("m3", "c")]
    ∧ capBugConfig.maxLabelCount
        < (lokiFormat capBugConfig capBugStatic capBugEntry).stream.length := by
  decide

/-- C8 counterexample: with queue [a, b] and a connected socket, a flush
whose first send attempt fails synchronously still delivers both lines
within the same flush call (the loop re-attempts the failed line instead
of halting until the next connect or trigger), while a flush observed for
exactly one failing attempt shows the line back at the front. -/
theorem claim_C8_counterexample :
    (flushQueue (syslogConnected ["a", "b"]) [false, true, true]).queue = []
    ∧ (flushQueue (syslogConnected ["a", "b"]) [false, true, true]).sent = ["a", "b"]
    ∧ flushQueue (syslogConnected ["a", "b"]) [false] = syslogConnected ["a", "b"] := by
  decide

/-- C8 (amended): the syslog flush dequeues and sends lines in enqueue
order; a synchronous send error re-queues the failed line at the front of
the queue and delivers nothing in that attempt, so the line is never
dropped; however the flush loop does not halt on such an error: it
immediately re-attempts the same line in the same flush call, proceeding
to later lines only once it succeeds. -/
theorem claim_C8_amended (q tl : List String) (m : String) (outs : List Bool) :
    flushQueue (syslogConnected q) (List.replicate q.length true)
        = { queue := [], hasSocket := true, isConnecting := false, retryCount := 0
            reconnectTimer := none, sent := q }
    ∧ sendMessage (syslogConnected tl) m false = syslogConnected (m :: tl)
    ∧ flushLoop (syslogConnected (m :: tl)) (false :: outs)
        = flushLoop (syslogConnected (m :: tl)) outs := by
  refine ⟨?_, by simp [sendMessage, syslogConnected], flushLoop_fail_retry m tl outs⟩
  cases q with
  | nil => rfl
  | cons m2 tl2 =>
    unfold flushQueue
    rw [if_neg (by simp [syslogConnected])]
    exact flushLoop_all_true (m2 :: tl2) false 0 none []

/-- C9: a reliable Loki transport configuration with any of the six
numeric options given as 0 resolves to exactly the same settings as with
the option omitted (the JS or-default treats 0 as falsy); in particular
maxRetries 0 resolves to 5 retries and maxLabelCount 0 to a cap of 50.
All transport transitions consume only the resolved settings, so the
behaviour is identical. -/
theorem claim_C9 (c : LokiConfig) (d : Nat) :
    jsOr (some 0) d = jsOr none d
    ∧ resolveLokiConfig (withZeroNumericOpts c)
        = resolveLokiConfig (withOmittedNumericOpts c)
    ∧ (resolveLokiConfig (withZeroNumericOpts c)).maxRetries = 5
    ∧ (resolveLokiConfig (withZeroNumericOpts c)).maxLabelCount = 50 :=
  ⟨rfl, rfl, rfl, rfl⟩

/-- C10: when the entry metadata contains the key level, the stream label
set produced by the transport call site maps level to the metadata value,
overriding both the derived severity name and any static label, in the
capped and uncapped paths alike: the metadata is merged last. -/
theorem claim_C10 (cfg : LokiResolved) (staticLabels : JsObj) (e : LogEntry) (v : String)
    (hnd : (e.metadata.map Prod.fst).Nodup)
    (hm : jsLookup e.metadata "level" = some v) :
    jsLookup (lokiFormat cfg staticLabels e).stream "level" = some v := by
  have hlast : lastLookup e.metadata "level" = some v := by
    rw [lastLookup_eq_jsLookup_of_nodup e.metadata "level" hnd]
    exact hm
  have hA : jsLookup (fromEntries
      (fromEntries (("level", e.level.levelName) :: fromEntries (staticLabels ++ e.metadata))
        ++ e.metadata)) "level" = some v := by
    rw [jsLookup_fromEntries, lastLookup_append, hlast]
    rfl
  have hL : lastLookup (fromEntries (staticLabels ++ e.metadata)) "level" = some v := by
    rw [lastLookup_eq_jsLookup_of_nodup _ _ (nodupKeys_fromEntries _),
        jsLookup_fromEntries, lastLookup_append, hlast]
    rfl
  unfold lokiFormat formatLokiMessage
  dsimp only
  split
  · rw [hA]
    dsimp only [Option.getD]
    rw [jsLookup_fromEntries, lastLookup_cons, lastLookup_append, hL,
        lastLookup_sliceTo_filter_ne]
    rfl
  · exact hA

/-- Witness for C10: metadata level value custom overrides the INFO
severity name in the produced stream labels. -/
theorem claim_C10_witness :
    ((([("level", "custom")] : JsObj).map Prod.fst).Nodup
        ∧ jsLookup ([("level", "custom")] : JsObj) "level" = some "custom")
    ∧ jsLookup (lokiFormat ⟨10, 5000, 50, 10000, 5, 1000⟩ [("app", "x")]
        ⟨"m", .INFO, 0, [("level", "custom")]⟩).stream "level" = some "custom" :=
  ⟨⟨by decide, by decide⟩,
    claim_C10 ⟨10, 5000, 50, 10000, 5, 1000⟩ [("app", "x")]
      ⟨"m", .INFO, 0, [("level", "custom")]⟩ "custom" (by decide) (by decide)⟩

/-- Witness for C5: third consecutive failure with base delay 1000 ms gives
a 4000 ms retry timer. -/
theorem claim_C5_witness :
    (completeFail ⟨10, 5000, 50, 10000, 5, 1000⟩
        ⟨[⟨[], []⟩], 2, true, some [⟨[], []⟩], false, none⟩).retryTimer = some 4000
    ∧ (handleSocketError ⟨1000, 1000⟩
        ⟨[], false, false, 2, none, []⟩).reconnectTimer = some 4000 := by
  have h := claim_C5 ⟨10, 5000, 50, 10000, 5, 1000⟩ ⟨1000, 1000⟩
    ⟨[⟨[], []⟩], 2, true, some [⟨[], []⟩], false, none⟩
    ⟨[], false, false, 2, none, []⟩ [⟨[], []⟩] rfl (by decide) rfl
  exact ⟨h.1, h.2.1⟩

end LoggerJS
